import Mathlib

/-!
Verification of `radio.py` (OfflineVirtualRadio): a shallow embedding of the
live-offset scheduling model, the cue-sheet track index, the station
controller state machine and the resync loop guard, with theorems checking
the natural-language specification against the code.

Python strings are modelled as `List Char`; Python floats (`time.time()`
seconds) are modelled as exact rationals; Python `int` is modelled as `ℤ`
with Python's `%` (sign of the divisor) matching `Int.emod`.
-/

namespace Radio

/-- Python strings as lists of characters. -/
abbrev Str := List Char

/-- Python `str.strip(chars)`: remove leading and trailing characters drawn
from `cs`. -/
def pyStripChars (cs : List Char) (s : Str) : Str :=
  ((s.dropWhile (· ∈ cs)).reverse.dropWhile (· ∈ cs)).reverse

/-- Python `str.strip()` (no argument): remove leading and trailing
whitespace. -/
def pyStripWs (s : Str) : Str :=
  ((s.dropWhile Char.isWhitespace).reverse.dropWhile Char.isWhitespace).reverse

/-- Split a string at every character satisfying `p`, keeping empty pieces
(the behaviour of Python `str.split(c)` when `p` tests for the single
separator character `c`). -/
def splitOnPred (p : Char → Bool) : Str → List Str
  | [] => [[]]
  | c :: cs =>
    match splitOnPred p cs with
    | [] => [[]]
    | piece :: rest => if p c then [] :: piece :: rest else (c :: piece) :: rest

/-- Python `str.split('"')`. -/
def splitOnChar (c : Char) (s : Str) : List Str :=
  splitOnPred (· = c) s

/-- Python `str.split()` with no argument: split on whitespace runs, dropping
empty pieces. -/
def pyWsSplit (s : Str) : List Str :=
  (splitOnPred Char.isWhitespace s).filter (· ≠ [])

/-- Digits of a Python `int()` literal body: nonempty, all decimal digits. -/
def digitsVal : Str → Option ℕ
  | [] => none
  | l => if l.all Char.isDigit
      then some (l.foldl (fun n c => n * 10 + (c.toNat - 48)) 0)
      else none

/-- Python `int(s)`: strips whitespace, allows one optional sign, then a
nonempty digit string; any other shape raises `ValueError`, modelled as
`none`. (Underscore digit separators are not modelled; no input considered
here contains them.) -/
def pyInt (s : Str) : Option ℤ :=
  match pyStripWs s with
  | '+' :: rest => (digitsVal rest).map (fun n => (n : ℤ))
  | '-' :: rest => (digitsVal rest).map (fun n => -(n : ℤ))
  | rest => (digitsVal rest).map (fun n => (n : ℤ))

/-- One entry of a station's cue sheet, as built by `parse_cue`: the
`current` dict may lack `artist` or `title` when the `INDEX 01` line is
reached, hence the `Option` fields; `time` is the start offset in seconds. -/
structure TrackEntry where
  artist : Option Str
  title : Option Str
  time : ℤ
deriving DecidableEq

/-- The separator string `" - "` used by `current_track`'s f-string. -/
def sepStr : Str := [' ', '-', ' ']

/-- The character set stripped by `.strip(" -")` in `current_track`. -/
def stripSet : List Char := [' ', '-']

/-- The display string `f"{artist} - {title}".strip(" -")` built from raw
artist and title strings. -/
def displayRaw (a t : Str) : Str :=
  pyStripChars stripSet (a ++ sepStr ++ t)

/-- The display string of a track entry (`cur.get('artist','')`,
`cur.get('title','')`). -/
def displayTrack (e : TrackEntry) : Str :=
  displayRaw (e.artist.getD []) (e.title.getD [])

/-- The scan loop of `current_track`: `for t in tracks: if offset >= t.time:
cur = t else: break`. -/
def pickTrack (offset : ℤ) (cur : TrackEntry) : List TrackEntry → TrackEntry
  | [] => cur
  | t :: ts => if offset ≥ t.time then pickTrack offset t ts else cur

/-- `current_track(station, offset)` given the station's parsed track list:
empty list returns `""`; otherwise `cur` starts at `tracks[0]` and the scan
loop runs over the whole list. -/
def current_track (tracks : List TrackEntry) (offset : ℤ) : Str :=
  match tracks with
  | [] => []
  | t0 :: rest => displayTrack (pickTrack offset t0 (t0 :: rest))

/-- Specification-side lookup: the last entry whose start time is at most
`offset`, among entries in list order. -/
def lastStarted (tracks : List TrackEntry) (offset : ℤ) : Option TrackEntry :=
  (tracks.filter (fun t => t.time ≤ offset)).getLast?

/-- A catalog entry: `STATIONS[name]["length"]` (seconds, `max 1` applied by
`get_mp3_length_seconds`) and `STATIONS[name]["seed"]`. The mp3 path is
opaque to the logic verified here and is omitted. -/
structure Station where
  length : ℤ
  seed : ℤ
deriving DecidableEq

/-- Python float `%`: `a % b = a - b * floor(a / b)`, result with the sign of
the divisor; modelled exactly on the rationals. -/
def qmod (a b : ℚ) : ℚ :=
  a - b * ⌊a / b⌋

/-- `live_offset(station)` from `radio.py`, with the wall clock
`time.time()` and the reference `DAY_START` passed in as exact rationals
(seconds): `t = (now - DAY_START + seed) % length`; returns
`(int(t * 1000), length * 1000)`. `t` is nonnegative for the positive
lengths produced by the catalog, where Python's truncating `int()` agrees
with the floor used here. -/
def live_offset (st : Station) (now dayStart : ℚ) : ℤ × ℤ :=
  (⌊qmod (now - dayStart + (st.seed : ℚ)) (st.length : ℚ) * 1000⌋, st.length * 1000)

/-- The process configuration: the station catalog in insertion order
(`STATIONS`, whose key list is `STATION_ORDER`) and the fixed reference
instant `DAY_START` (seconds). -/
structure Config where
  stations : List (String × Station)
  dayStart : ℚ

/-- `STATION_ORDER = list(STATIONS.keys())`. -/
def Config.order (cfg : Config) : List String :=
  cfg.stations.map Prod.fst

/-- Catalog lookup `STATIONS[name]`; the state-machine invariant keeps
`CURRENT_STATION` a valid key, so the default is never reached from the
verified entry points. -/
def Config.station (cfg : Config) (name : String) : Station :=
  (cfg.stations.lookup name).getD ⟨1, 0⟩

/-- The mutable globals `CURRENT_STATION`, `PAUSED`, `PLAYING`. -/
structure RState where
  currentStation : String
  paused : Bool
  playing : Bool
deriving DecidableEq

/-- The initial state: `CURRENT_STATION = DEFAULT_STATION`, `PAUSED = True`,
`PLAYING = False`. -/
def initState (deflt : String) : RState :=
  ⟨deflt, true, false⟩

/-- Calls made to the vlc player object, recorded as a trace.
`write_ui_state` touches only the state file, never the engine, so it
produces no events. -/
inductive EngineCall where
  | stop : EngineCall
  | load : String → EngineCall
  | play : EngineCall
  | getState : EngineCall
  | seek : ℤ → EngineCall
deriving DecidableEq

/-- The bounded poll in `start_playback`: up to 50 checks of
`player.get_state()`, breaking at the first one that reports `Playing`;
`o k` tells whether the engine reports `Playing` at the `k`-th check.
Returns the number of checks performed. -/
def pollLoop (o : ℕ → Bool) : ℕ → ℕ → ℕ
  | 0, _ => 0
  | fuel + 1, k => if o k then 1 else 1 + pollLoop o fuel (k + 1)

/-- `start_playback()`: computes the live offset for `CURRENT_STATION`,
loads and plays the media, polls the engine state up to 50 times, then
unconditionally seeks to the offset and sets `PLAYING = True`. -/
def start_playback (cfg : Config) (o : ℕ → Bool) (now : ℚ) (s : RState) :
    RState × List EngineCall :=
  let offset := (live_offset (cfg.station s.currentStation) now cfg.dayStart).1
  ({s with playing := true},
    .load s.currentStation :: .play ::
      (List.replicate (pollLoop o 50 0) .getState ++ [.seek offset]))

/-- `stop_playback()`: `player.stop()`, `PLAYING = False`. -/
def stop_playback (s : RState) : RState × List EngineCall :=
  ({s with playing := false}, [.stop])

/-- `play_station(name)`: set `CURRENT_STATION`, rewrite the UI state file,
and return early when `PAUSED`; otherwise stop then start playback. -/
def play_station (cfg : Config) (o : ℕ → Bool) (now : ℚ) (s : RState)
    (name : String) : RState × List EngineCall :=
  let s1 := {s with currentStation := name}
  if s1.paused then (s1, [])
  else
    let (s2, t2) := stop_playback s1
    let (s3, t3) := start_playback cfg o now s2
    (s3, t2 ++ t3)

/-- `pause_radio()`: guarded by `if not PAUSED`; sets `PAUSED = True`, stops
playback, rewrites the UI state file. -/
def pause_radio (s : RState) : RState × List EngineCall :=
  if s.paused then (s, [])
  else stop_playback {s with paused := true}

/-- `resume_radio()`: guarded by `if PAUSED`; sets `PAUSED = False`,
rewrites the UI state file, starts playback. -/
def resume_radio (cfg : Config) (o : ℕ → Bool) (now : ℚ) (s : RState) :
    RState × List EngineCall :=
  if s.paused then start_playback cfg o now {s with paused := false}
  else (s, [])

/-- `next_station()`: `STATION_ORDER[(idx + 1) % len(STATION_ORDER)]`, then
`play_station`. Python's `%` on ints is `Int.emod`. -/
def next_station (cfg : Config) (o : ℕ → Bool) (now : ℚ) (s : RState) :
    RState × List EngineCall :=
  let idx := cfg.order.indexOf s.currentStation
  let new := cfg.order.getD (((idx : ℤ) + 1) % (cfg.order.length : ℤ)).toNat ""
  play_station cfg o now s new

/-- `prev_station()`: `STATION_ORDER[(idx - 1) % len(STATION_ORDER)]`, then
`play_station`. -/
def prev_station (cfg : Config) (o : ℕ → Bool) (now : ℚ) (s : RState) :
    RState × List EngineCall :=
  let idx := cfg.order.indexOf s.currentStation
  let new := cfg.order.getD (((idx : ℤ) - 1) % (cfg.order.length : ℤ)).toNat ""
  play_station cfg o now s new

/-- One iteration of the `loop_guard` body: when not paused and playing,
read the engine position `pos` and restart playback if it has come within
1500 ms of the station's `length * 1000`. -/
def tick (cfg : Config) (o : ℕ → Bool) (now : ℚ) (s : RState) (pos : ℤ) :
    RState × List EngineCall :=
  if s.paused = false ∧ s.playing = true then
    let maxLen := (live_offset (cfg.station s.currentStation) now cfg.dayStart).2
    if pos ≥ maxLen - 1500 then start_playback cfg o now s
    else (s, [])
  else (s, [])

/-- The state-machine invariant claimed by the spec: paused implies not
playing. -/
def Inv (s : RState) : Prop :=
  s.paused = true → s.playing = false

/-- One `loop_guard` tick seen from the engine position: if the reported
position `pos` has reached `length * 1000 - 1500`, playback restarts and the
engine is reseeked to the freshly computed live offset; returns the position
after the tick's action and whether a restart was triggered. -/
def guardStep (st : Station) (dayStart now : ℚ) (pos : ℤ) : ℤ × Bool :=
  if pos ≥ st.length * 1000 - 1500
  then ((live_offset st now dayStart).1, true)
  else (pos, false)

/-- A run of `loop_guard` ticks while playing and not paused: ticks are one
second apart, and between ticks the engine cursor advances 1000 ms from
wherever the previous tick left it. Returns the restart flag of each tick. -/
def guardRun (st : Station) (dayStart : ℚ) : ℚ → ℤ → ℕ → List Bool
  | _, _, 0 => []
  | now, pos, n + 1 =>
    (guardStep st dayStart now pos).2 ::
      guardRun st dayStart (now + 1) ((guardStep st dayStart now pos).1 + 1000) n

/-- `l.startswith(tag)`. -/
def hasTag (tag : String) (l : Str) : Bool :=
  tag.toList.isPrefixOf l

/-- The line loop of `parse_cue`, carrying the `current` dict (possibly-set
`artist` and `title`). A `PERFORMER`/`TITLE` line takes `line.split('"')[1]`,
an `IndexError` (modelled as `.error`) if the line has no `"`; an `INDEX 01`
line unpacks `line.split()[-1].split(":")` into exactly three fields and
converts the first two with `int()`, a `ValueError` (also `.error`)
otherwise; every other line is skipped. On `INDEX 01` the current entry is
appended and the dict reset. -/
def parseCueLoop (a t : Option Str) : List Str → Except Unit (List TrackEntry)
  | [] => .ok []
  | line :: rest =>
    let l := pyStripWs line
    if hasTag "PERFORMER" l then
      match (splitOnChar '"' l).get? 1 with
      | some v => parseCueLoop (some v) t rest
      | none => .error ()
    else if hasTag "TITLE" l then
      match (splitOnChar '"' l).get? 1 with
      | some v => parseCueLoop a (some v) rest
      | none => .error ()
    else if hasTag "INDEX 01" l then
      match splitOnChar ':' ((pyWsSplit l).getLastD []) with
      | [m, s, _f] =>
        match pyInt m, pyInt s with
        | some mi, some si =>
          (parseCueLoop none none rest).map (fun ts => ⟨a, t, mi * 60 + si⟩ :: ts)
        | _, _ => .error ()
      | _ => .error ()
    else parseCueLoop a t rest

/-- `parse_cue` on the lines of an existing cue file (the missing-file early
return yields `[]` before any line is read and is not modelled further). -/
def parse_cue (lines : List Str) : Except Unit (List TrackEntry) :=
  parseCueLoop none none lines

/-! ### Theorems -/

theorem floor_intCast_div_intCast (n d : ℤ) (hd : 0 ≤ d) :
    ⌊(n : ℚ) / (d : ℚ)⌋ = n / d := by
  obtain ⟨k, rfl⟩ := Int.eq_ofNat_of_zero_le hd
  exact_mod_cast Rat.floor_intCast_div_natCast n k

theorem qmod_cast_mul (a L : ℤ) (hL : 0 < L) :
    ⌊qmod ((a : ℚ) / 1000) (L : ℚ) * 1000⌋ = a % (L * 1000) := by
  have hD : (0:ℤ) < L * 1000 := by positivity
  have h2 : ((a : ℚ) / 1000) / (L : ℚ) = (a : ℚ) / ((L * 1000 : ℤ) : ℚ) := by
    push_cast
    rw [div_div, mul_comm]
  have h3 : ⌊((a : ℚ) / 1000) / (L : ℚ)⌋ = a / (L * 1000) := by
    rw [h2]
    exact floor_intCast_div_intCast a (L * 1000) hD.le
  have h4 : qmod ((a : ℚ) / 1000) (L : ℚ) * 1000
      = ((a - L * 1000 * (a / (L * 1000)) : ℤ) : ℚ) := by
    unfold qmod
    rw [h3]
    push_cast
    ring
  rw [h4, Int.floor_intCast, Int.emod_def]

theorem live_offset_eval (st : Station) (nowMs dayStartMs : ℤ)
    (hL : 0 < st.length) :
    (live_offset st ((nowMs : ℚ) / 1000) ((dayStartMs : ℚ) / 1000)).1
      = (nowMs - dayStartMs + st.seed * 1000) % (st.length * 1000) := by
  have h1 : (nowMs : ℚ) / 1000 - (dayStartMs : ℚ) / 1000 + (st.seed : ℚ)
      = ((nowMs - dayStartMs + st.seed * 1000 : ℤ) : ℚ) / 1000 := by
    push_cast
    ring
  show ⌊qmod ((nowMs : ℚ) / 1000 - (dayStartMs : ℚ) / 1000 + (st.seed : ℚ))
      (st.length : ℚ) * 1000⌋ = _
  rw [h1]
  exact qmod_cast_mul _ st.length hL

/-- Claim C1: for every catalog station (whose length is at least 1 second)
and every integer time `nowMs` in milliseconds — negative or arbitrarily
large — `live_offset` returns
`(nowMs - dayStartMs + seed * 1000) mod durationMs`, and this offset lies in
`[0, durationMs)`. -/
theorem live_offset_mod_spec (st : Station) (nowMs dayStartMs : ℤ)
    (h : 1 ≤ st.length) :
    (live_offset st ((nowMs : ℚ) / 1000) ((dayStartMs : ℚ) / 1000)).1
        = (nowMs - dayStartMs + st.seed * 1000) % (st.length * 1000) ∧
      0 ≤ (live_offset st ((nowMs : ℚ) / 1000) ((dayStartMs : ℚ) / 1000)).1 ∧
      (live_offset st ((nowMs : ℚ) / 1000) ((dayStartMs : ℚ) / 1000)).1
        < st.length * 1000 := by
  have hL : (0:ℤ) < st.length := by omega
  have hD : (0:ℤ) < st.length * 1000 := by positivity
  have key := live_offset_eval st nowMs dayStartMs hL
  refine ⟨key, ?_, ?_⟩
  · rw [key]
    exact Int.emod_nonneg _ (ne_of_gt hD)
  · rw [key]
    exact Int.emod_lt_of_pos _ hD

/-- Witness for C1: the spec's end-to-end example, a 120000 ms station with
seed 0 queried 200000 ms after the reference instant, giving offset 80000. -/
theorem live_offset_mod_spec_witness :
    1 ≤ (Station.mk 120 0).length ∧
      ((live_offset ⟨120, 0⟩ (((200000 : ℤ) : ℚ) / 1000) (((0 : ℤ) : ℚ) / 1000)).1
          = ((200000 : ℤ) - 0 + (Station.mk 120 0).seed * 1000)
              % ((Station.mk 120 0).length * 1000) ∧
        0 ≤ (live_offset ⟨120, 0⟩ (((200000 : ℤ) : ℚ) / 1000)
              (((0 : ℤ) : ℚ) / 1000)).1 ∧
        (live_offset ⟨120, 0⟩ (((200000 : ℤ) : ℚ) / 1000) (((0 : ℤ) : ℚ) / 1000)).1
          < (Station.mk 120 0).length * 1000) :=
  ⟨by decide, live_offset_mod_spec ⟨120, 0⟩ 200000 0 (by decide)⟩

theorem getLastD_cons_eq {α : Type} (a c : α) (l : List α) :
    (a :: l).getLastD c = l.getLastD a := by
  cases l with
  | nil => rfl
  | cons b bs =>
    simp only [List.getLastD_eq_getLast?]
    obtain ⟨x, hx⟩ := Option.isSome_iff_exists.mp
      (List.getLast?_isSome.mpr (List.cons_ne_nil b bs))
    rw [List.getLast?_cons_cons, hx]
    rfl

theorem pickTrack_sorted (offset : ℤ) :
    ∀ (ts : List TrackEntry) (cur : TrackEntry),
      ts.Pairwise (fun x y => x.time ≤ y.time) →
      pickTrack offset cur ts
        = (ts.filter (fun t => t.time ≤ offset)).getLastD cur := by
  intro ts
  induction ts with
  | nil => intro cur _; rfl
  | cons t ts ih =>
    intro cur hp
    rw [List.pairwise_cons] at hp
    obtain ⟨hhead, htail⟩ := hp
    by_cases h : t.time ≤ offset
    · rw [pickTrack, if_pos (by exact h)]
      rw [ih t htail]
      have : (t :: ts).filter (fun t => t.time ≤ offset)
          = t :: ts.filter (fun t => t.time ≤ offset) := by
        simp [List.filter_cons, h]
      rw [this, getLastD_cons_eq]
    · rw [pickTrack, if_neg (by exact h)]
      have hnil : (t :: ts).filter (fun t => t.time ≤ offset) = [] := by
        rw [List.filter_eq_nil_iff]
        intro x hx
        simp only [decide_eq_true_eq]
        rcases List.mem_cons.mp hx with rfl | hmem
        · exact h
        · intro hxo
          exact h (le_trans (hhead x hmem) hxo)
      rw [hnil]
      rfl

/-- Track entries used in the spec's `currentTrack` round-trip example:
titles A, B, C starting at 0, 30, 90 seconds. -/
def demoA : TrackEntry := ⟨none, some ['A'], 0⟩

/-- Second demo entry, title B at 30 seconds. -/
def demoB : TrackEntry := ⟨none, some ['B'], 30⟩

/-- Third demo entry, title C at 90 seconds. -/
def demoC : TrackEntry := ⟨none, some ['C'], 90⟩

/-- Claim C2 counterexample: with entries starting at 0, 30, 90 titled
A, B, C, querying offset -1 returns the first entry's display string "A" —
the loop variable `cur` is initialised to `tracks[0]` before any comparison —
not the empty string the spec claims for a query no entry qualifies for. -/
theorem current_track_before_first_entry :
    current_track [demoA, demoB, demoC] (-1) = ['A'] ∧
      (['A'] : Str) ≠ ([] : Str) := by
  constructor
  · rfl
  · decide

/-- Claim C2 as amended: with entries in ascending start order, the result
is the display string of the last entry whose start is at most the queried
offset; an empty track list yields the empty string; but when entries exist
and none qualifies, the first entry's display string is returned (not the
empty string). -/
theorem current_track_last_started (offset : ℤ) (t0 : TrackEntry)
    (rest : List TrackEntry)
    (h : (t0 :: rest).Pairwise (fun x y => x.time ≤ y.time)) :
    current_track [] offset = ([] : Str) ∧
      current_track (t0 :: rest) offset
        = displayTrack ((lastStarted (t0 :: rest) offset).getD t0) := by
  constructor
  · rfl
  · show displayTrack (pickTrack offset t0 (t0 :: rest)) = _
    rw [pickTrack_sorted offset (t0 :: rest) t0 h]
    rw [lastStarted, List.getLastD_eq_getLast?]

/-- Witness for C2 (amended): the spec's round-trip example at offset 45,
where the qualifying entries are A and B and the display string is B's. -/
theorem current_track_last_started_witness :
    List.Pairwise (fun x y => x.time ≤ y.time) (demoA :: [demoB, demoC]) ∧
      (current_track [] 45 = ([] : Str) ∧
        current_track (demoA :: [demoB, demoC]) 45
          = displayTrack ((lastStarted (demoA :: [demoB, demoC]) 45).getD demoA)) :=
  ⟨by decide, current_track_last_started 45 demoA [demoB, demoC] (by decide)⟩

/-- Claim C3: selecting a station while paused only rebinds
`currentStation` and issues no engine calls; selecting while playing issues
exactly one stop followed by one start (load, play, bounded state polls,
seek) of the new station at the live-clock offset. -/
theorem play_station_engine_calls (cfg : Config) (o : ℕ → Bool) (now : ℚ)
    (s1 s2 : RState) (name : String) (h1 : s1.paused = true)
    (_h2 : s2.playing = true) (h3 : s2.paused = false) :
    play_station cfg o now s1 name = ({s1 with currentStation := name}, []) ∧
      (play_station cfg o now s2 name).2
        = .stop :: .load name :: .play ::
            (List.replicate (pollLoop o 50 0) .getState ++
              [.seek (live_offset (cfg.station name) now cfg.dayStart).1]) ∧
      (play_station cfg o now s2 name).2.count .stop = 1 ∧
      (play_station cfg o now s2 name).2.count (.load name) = 1 ∧
      (play_station cfg o now s2 name).2.count
        (.seek (live_offset (cfg.station name) now cfg.dayStart).1) = 1 ∧
      (play_station cfg o now s2 name).1.currentStation = name := by
  refine ⟨?_, ?_⟩
  · simp [play_station, h1]
  · have htr : (play_station cfg o now s2 name).2
        = .stop :: .load name :: .play ::
            (List.replicate (pollLoop o 50 0) .getState ++
              [.seek (live_offset (cfg.station name) now cfg.dayStart).1]) := by
      simp [play_station, h3, stop_playback, start_playback]
    refine ⟨htr, ?_, ?_, ?_, ?_⟩
    · rw [htr]
      simp [List.count_cons, List.count_append, List.count_replicate]
    · rw [htr]
      simp [List.count_cons, List.count_append, List.count_replicate]
    · rw [htr]
      simp [List.count_cons, List.count_append, List.count_replicate]
    · simp [play_station, h3, stop_playback, start_playback]

/-- A two-station catalog used to instantiate the controller theorems. -/
def cfgAB : Config :=
  ⟨[("A", ⟨120, 0⟩), ("B", ⟨90, 3⟩)], 0⟩

/-- An engine oracle that never reports the `Playing` state. -/
def oracleNever : ℕ → Bool := fun _ => false

/-- Witness for C3: switching from station A (once paused, once playing)
to station B in the two-station catalog. -/
theorem play_station_engine_calls_witness :
    (RState.mk "A" true false).paused = true ∧
      (RState.mk "A" false true).playing = true ∧
      (RState.mk "A" false true).paused = false ∧
      (play_station cfgAB oracleNever 0 ⟨"A", true, false⟩ "B"
          = ({RState.mk "A" true false with currentStation := "B"}, []) ∧
        (play_station cfgAB oracleNever 0 ⟨"A", false, true⟩ "B").2
          = .stop :: .load "B" :: .play ::
              (List.replicate (pollLoop oracleNever 50 0) .getState ++
                [.seek (live_offset (cfgAB.station "B") 0 cfgAB.dayStart).1]) ∧
        (play_station cfgAB oracleNever 0 ⟨"A", false, true⟩ "B").2.count .stop = 1 ∧
        (play_station cfgAB oracleNever 0 ⟨"A", false, true⟩ "B").2.count
          (.load "B") = 1 ∧
        (play_station cfgAB oracleNever 0 ⟨"A", false, true⟩ "B").2.count
          (.seek (live_offset (cfgAB.station "B") 0 cfgAB.dayStart).1) = 1 ∧
        (play_station cfgAB oracleNever 0 ⟨"A", false, true⟩ "B").1.currentStation
          = "B") :=
  ⟨rfl, rfl, rfl,
    play_station_engine_calls cfgAB oracleNever 0 ⟨"A", true, false⟩
      ⟨"A", false, true⟩ "B" rfl rfl rfl⟩

theorem inv_play_station (cfg : Config) (o : ℕ → Bool) (now : ℚ)
    (s : RState) (name : String) (h : Inv s) :
    Inv (play_station cfg o now s name).1 := by
  intro hp
  by_cases hq : s.paused
  · simpa [play_station, hq] using h hq
  · simp [play_station, hq, stop_playback, start_playback] at hp

theorem inv_pause (s : RState) (h : Inv s) : Inv (pause_radio s).1 := by
  intro hp
  by_cases hq : s.paused
  · simpa [pause_radio, hq] using h hq
  · simp [pause_radio, hq, stop_playback]

theorem inv_resume (cfg : Config) (o : ℕ → Bool) (now : ℚ) (s : RState) :
    Inv (resume_radio cfg o now s).1 := by
  intro hp
  by_cases hq : s.paused
  · have h2 : (resume_radio cfg o now s).1.paused = false := by
      simp [resume_radio, hq, start_playback]
    exact absurd (h2.symm.trans hp) (by decide)
  · simp [resume_radio, hq] at hp

theorem inv_tick (cfg : Config) (o : ℕ → Bool) (now : ℚ) (s : RState)
    (pos : ℤ) (h : Inv s) : Inv (tick cfg o now s pos).1 := by
  rw [tick]
  by_cases hc : s.paused = false ∧ s.playing = true
  · rw [if_pos hc]
    by_cases hpos :
        pos ≥ (live_offset (cfg.station s.currentStation) now cfg.dayStart).2 - 1500
    · rw [if_pos hpos]
      intro hp
      have h2 : (start_playback cfg o now s).1.paused = false := by
        simp [start_playback, hc.1]
      exact absurd (h2.symm.trans hp) (by decide)
    · rw [if_neg hpos]
      exact h
  · rw [if_neg hc]
    exact h

/-- Claim C4: the invariant `paused = true implies playing = false` holds in
the initial state (`PAUSED = True`, `PLAYING = False`) and is preserved by
every mutation of the playback state: `play_station`, `pause_radio`,
`resume_radio`, `next_station`, `prev_station`, and the resync tick. -/
theorem paused_not_playing_invariant (cfg : Config) (o : ℕ → Bool) (now : ℚ)
    (s : RState) (name : String) (pos : ℤ) (h : Inv s) :
    Inv (initState name) ∧
      Inv (play_station cfg o now s name).1 ∧
      Inv (pause_radio s).1 ∧
      Inv (resume_radio cfg o now s).1 ∧
      Inv (next_station cfg o now s).1 ∧
      Inv (prev_station cfg o now s).1 ∧
      Inv (tick cfg o now s pos).1 :=
  ⟨fun _ => rfl,
    inv_play_station cfg o now s name h,
    inv_pause s h,
    inv_resume cfg o now s,
    inv_play_station cfg o now s _ h,
    inv_play_station cfg o now s _ h,
    inv_tick cfg o now s pos h⟩

/-- Witness for C4: preservation instantiated at the initial state of the
two-station catalog. -/
theorem paused_not_playing_invariant_witness :
    Inv (initState "A") ∧
      (Inv (initState "B") ∧
        Inv (play_station cfgAB oracleNever 0 (initState "A") "B").1 ∧
        Inv (pause_radio (initState "A")).1 ∧
        Inv (resume_radio cfgAB oracleNever 0 (initState "A")).1 ∧
        Inv (next_station cfgAB oracleNever 0 (initState "A")).1 ∧
        Inv (prev_station cfgAB oracleNever 0 (initState "A")).1 ∧
        Inv (tick cfgAB oracleNever 0 (initState "A") 0).1) :=
  ⟨by intro hp; rfl,
    paused_not_playing_invariant cfgAB oracleNever 0 (initState "A") "B" 0
      (by intro hp; rfl)⟩

/-- Claim C6: `pause_radio` in an already-paused state is a no-op with no
engine calls, and `resume_radio` in an already-playing (unpaused) state is a
no-op with no engine calls. -/
theorem pause_resume_noop (cfg : Config) (o : ℕ → Bool) (now : ℚ)
    (s1 s2 : RState) (h1 : s1.paused = true) (h2 : s2.paused = false) :
    pause_radio s1 = (s1, []) ∧ resume_radio cfg o now s2 = (s2, []) := by
  constructor
  · simp [pause_radio, h1]
  · simp [resume_radio, h2]

/-- Witness for C6: a paused state and a playing state over the two-station
catalog. -/
theorem pause_resume_noop_witness :
    (RState.mk "A" true false).paused = true ∧
      (RState.mk "A" false true).paused = false ∧
      (pause_radio ⟨"A", true, false⟩ = (⟨"A", true, false⟩, []) ∧
        resume_radio cfgAB oracleNever 0 ⟨"A", false, true⟩
          = (⟨"A", false, true⟩, [])) :=
  ⟨rfl, rfl,
    pause_resume_noop cfgAB oracleNever 0 ⟨"A", true, false⟩ ⟨"A", false, true⟩
      rfl rfl⟩

theorem pollLoop_le (o : ℕ → Bool) : ∀ (fuel k : ℕ), pollLoop o fuel k ≤ fuel := by
  intro fuel
  induction fuel with
  | zero => intro k; exact le_refl 0
  | succ n ih =>
    intro k
    rw [pollLoop]
    by_cases h : o k
    · simp [h]
    · simp [h]
      have := ih (k + 1)
      omega

/-- Claim C10: `start_playback` performs at most 50 engine-state checks and
then unconditionally issues the seek (the final engine call) and sets
`playing = true`, for every engine oracle — including one that never
reports `Playing`; consequently a completed `resume_radio` from any state
satisfying the controller invariants leaves `playing = true`. -/
theorem start_playback_always_plays (cfg : Config) (o : ℕ → Bool) (now : ℚ)
    (s : RState) (h : s.paused = false → s.playing = true) :
    (start_playback cfg o now s).1.playing = true ∧
      (start_playback cfg o now s).2.count .getState ≤ 50 ∧
      (start_playback cfg o now s).2
        = .load s.currentStation :: .play ::
            (List.replicate (pollLoop o 50 0) .getState ++
              [.seek (live_offset (cfg.station s.currentStation) now
                  cfg.dayStart).1]) ∧
      (resume_radio cfg o now s).1.playing = true := by
  refine ⟨rfl, ?_, rfl, ?_⟩
  · simp [start_playback, List.count_cons, List.count_append,
      List.count_replicate]
    exact pollLoop_le o 50 0
  · by_cases hp : s.paused
    · simp [resume_radio, hp, start_playback]
    · simp [resume_radio, hp]
      exact h (by simpa using hp)

/-- Witness for C10: the initial (paused) state of the two-station catalog
with the oracle that never reports `Playing`. -/
theorem start_playback_always_plays_witness :
    ((initState "A").paused = false → (initState "A").playing = true) ∧
      ((start_playback cfgAB oracleNever 0 (initState "A")).1.playing = true ∧
        (start_playback cfgAB oracleNever 0 (initState "A")).2.count
          .getState ≤ 50 ∧
        (start_playback cfgAB oracleNever 0 (initState "A")).2
          = .load (initState "A").currentStation :: .play ::
              (List.replicate (pollLoop oracleNever 50 0) .getState ++
                [.seek (live_offset (cfgAB.station
                    (initState "A").currentStation) 0 cfgAB.dayStart).1]) ∧
        (resume_radio cfgAB oracleNever 0 (initState "A")).1.playing = true) :=
  ⟨by decide,
    start_playback_always_plays cfgAB oracleNever 0 (initState "A") (by decide)⟩

/-- Claim C5 counterexample: a station of 100000 ms, seed 0, reference 0,
engine position 98000 ms at wall time 98 s. The first tick does not restart
(one boundary crossing is about to happen), but the second and third ticks
BOTH restart: the guard has no latch, and the freshly computed live offset
(99000 ms) lands back inside the guard window, so a single crossing
triggers two restarts on consecutive ticks — not exactly one. -/
theorem guard_restart_repeats :
    guardRun ⟨100, 0⟩ 0 98 98000 3 = [false, true, true] := by
  norm_num [guardRun, guardStep, live_offset, qmod]

/-- Claim C5 as amended: a restart is triggered exactly when the reported
position has come within 1500 ms of `durationMs`, and after a restart the
next tick does not restart again PROVIDED the freshly computed live offset
(plus the 1000 ms advance to the next tick) is still below the guard
boundary; when the fresh offset itself lands inside the guard window,
consecutive restarts occur. -/
theorem guard_restart_once (st : Station) (dayStart now : ℚ) (pos : ℤ)
    (h1 : (guardStep st dayStart now pos).2 = true)
    (h2 : (live_offset st now dayStart).1 + 1000 < st.length * 1000 - 1500) :
    (pos ≥ st.length * 1000 - 1500) ∧
      (guardStep st dayStart (now + 1)
        ((guardStep st dayStart now pos).1 + 1000)).2 = false := by
  have hge : pos ≥ st.length * 1000 - 1500 := by
    by_contra hno
    simp [guardStep, hno] at h1
  refine ⟨hge, ?_⟩
  have hfst : (guardStep st dayStart now pos).1
      = (live_offset st now dayStart).1 := by
    simp [guardStep, hge]
  rw [hfst, guardStep, if_neg (by omega)]

/-- Witness for C5 (amended): position 99000 on the 100000 ms station at
wall time 5 s triggers a restart whose reseek target 5000 is far from the
guard window, so the following tick does not restart. -/
theorem guard_restart_once_witness :
    (guardStep ⟨100, 0⟩ (((0 : ℤ) : ℚ) / 1000) (((5000 : ℤ) : ℚ) / 1000)
        99000).2 = true ∧
      (live_offset (⟨100, 0⟩ : Station) (((5000 : ℤ) : ℚ) / 1000)
            (((0 : ℤ) : ℚ) / 1000)).1 + 1000
        < (Station.mk 100 0).length * 1000 - 1500 ∧
      ((99000 ≥ (Station.mk 100 0).length * 1000 - 1500) ∧
        (guardStep ⟨100, 0⟩ (((0 : ℤ) : ℚ) / 1000)
          ((((5000 : ℤ) : ℚ) / 1000) + 1)
          ((guardStep ⟨100, 0⟩ (((0 : ℤ) : ℚ) / 1000) (((5000 : ℤ) : ℚ) / 1000)
              99000).1 + 1000)).2 = false) :=
  ⟨by decide,
    by rw [live_offset_eval ⟨100, 0⟩ 5000 0 (by decide)]; decide,
    guard_restart_once ⟨100, 0⟩ (((0 : ℤ) : ℚ) / 1000) (((5000 : ℤ) : ℚ) / 1000)
      99000 (by decide)
      (by rw [live_offset_eval ⟨100, 0⟩ 5000 0 (by decide)]; decide)⟩

theorem play_station_sets_station (cfg : Config) (o : ℕ → Bool) (now : ℚ)
    (s : RState) (name : String) :
    (play_station cfg o now s name).1.currentStation = name := by
  by_cases hp : s.paused <;>
    simp [play_station, hp, stop_playback, start_playback]

/-- Claim C7: from any state whose current station is a catalog key (the
catalog key list having no duplicates, as Python dict keys cannot),
`next_station` followed by `prev_station` restores `currentStation`; the
adjacency is the catalog's fixed key order with wrap-around through the
`% len(STATION_ORDER)` index arithmetic. -/
theorem next_prev_roundtrip (cfg : Config) (o1 o2 : ℕ → Bool)
    (n1 n2 : ℚ) (s : RState) (hnd : cfg.order.Nodup)
    (hmem : s.currentStation ∈ cfg.order) :
    (prev_station cfg o2 n2 (next_station cfg o1 n1 s).1).1.currentStation
      = s.currentStation := by
  set l := cfg.order with hl
  have hn : 0 < l.length := List.length_pos.mpr (List.ne_nil_of_mem hmem)
  have hnz : (l.length : ℤ) ≠ 0 := by exact_mod_cast hn.ne'
  set idx := l.indexOf s.currentStation with hidxdef
  have hidx : idx < l.length := List.indexOf_lt_length.mpr hmem
  set jZ : ℤ := ((idx : ℤ) + 1) % (l.length : ℤ) with hjZ
  have hjZ0 : 0 ≤ jZ := Int.emod_nonneg _ hnz
  have hjZlt : jZ < (l.length : ℤ) :=
    Int.emod_lt_of_pos _ (by exact_mod_cast hn)
  have hj : jZ.toNat < l.length := by omega
  have hnext : (next_station cfg o1 n1 s).1.currentStation
      = l.getD jZ.toNat "" := by
    rw [next_station]
    exact play_station_sets_station cfg o1 n1 s _
  have hgetD : l.getD jZ.toNat "" = l[jZ.toNat] := by
    rw [List.getD_eq_getElem?_getD, List.getElem?_eq_getElem hj]
    rfl
  have hprev :
      (prev_station cfg o2 n2 (next_station cfg o1 n1 s).1).1.currentStation
        = l.getD (((l.indexOf (l[jZ.toNat]) : ℤ) - 1) % (l.length : ℤ)).toNat
            "" := by
    rw [prev_station, hnext, hgetD]
    exact play_station_sets_station cfg o2 n2 _ _
  rw [hprev, List.indexOf_getElem hnd jZ.toNat hj]
  have harith : (((jZ.toNat : ℤ) - 1) % (l.length : ℤ)).toNat = idx := by
    rw [Int.toNat_of_nonneg hjZ0]
    have hmeq : jZ ≡ (idx : ℤ) + 1 [ZMOD (l.length : ℤ)] :=
      Int.emod_emod_of_dvd _ dvd_rfl
    have hsub : (jZ - 1) % (l.length : ℤ)
        = ((idx : ℤ) + 1 - 1) % (l.length : ℤ) := hmeq.sub_right 1
    rw [hsub]
    have hidxmod : ((idx : ℤ) + 1 - 1) % (l.length : ℤ) = (idx : ℤ) := by
      have he : (idx : ℤ) + 1 - 1 = (idx : ℤ) := by ring
      rw [he]
      exact Int.emod_eq_of_lt (by positivity) (by exact_mod_cast hidx)
    rw [hidxmod]
    exact Int.toNat_natCast idx
  rw [harith]
  rw [List.getD_eq_getElem?_getD, List.getElem?_eq_getElem hidx]
  show l[idx] = s.currentStation
  exact List.getElem_indexOf hidx

/-- Witness for C7: station A of the two-station catalog, paused; next then
prev comes back to A. -/
theorem next_prev_roundtrip_witness :
    cfgAB.order.Nodup ∧
      (RState.mk "A" true false).currentStation ∈ cfgAB.order ∧
      (prev_station cfgAB oracleNever 0
          (next_station cfgAB oracleNever 0 ⟨"A", true, false⟩).1).1.currentStation
        = "A" :=
  ⟨by decide, by decide,
    next_prev_roundtrip cfgAB oracleNever oracleNever 0 0 ⟨"A", true, false⟩
      (by decide) (by decide)⟩

theorem head?_dropWhile_not {p : Char → Bool} :
    ∀ {l : Str} {c : Char}, (l.dropWhile p).head? = some c → p c = false := by
  intro l
  induction l with
  | nil => intro c h; simp at h
  | cons x xs ih =>
    intro c h
    rw [List.dropWhile_cons] at h
    by_cases px : p x
    · rw [if_pos px] at h
      exact ih h
    · rw [if_neg px] at h
      simp at h
      subst h
      simpa using px

theorem getLast?_dropWhile_of_ne_nil {p : Char → Bool} :
    ∀ {l : Str}, l.dropWhile p ≠ [] → (l.dropWhile p).getLast? = l.getLast? := by
  intro l
  induction l with
  | nil => intro h; simp at h
  | cons x xs ih =>
    intro h
    rw [List.dropWhile_cons]
    by_cases px : p x
    · rw [List.dropWhile_cons, if_pos px] at h
      rw [if_pos px, ih h]
      have hxs : xs ≠ [] := by
        intro he
        rw [he] at h
        exact h rfl
      obtain ⟨y, ys, rfl⟩ := List.exists_cons_of_ne_nil hxs
      exact List.getLast?_cons_cons.symm
    · rw [if_neg px]

theorem pyStripChars_head_not_mem (cs : List Char) (s : Str) (c : Char)
    (h : (pyStripChars cs s).head? = some c) : c ∉ cs := by
  rw [pyStripChars, List.head?_reverse] at h
  have hne : ((s.dropWhile (· ∈ cs)).reverse.dropWhile (· ∈ cs)) ≠ [] := by
    intro he
    rw [he] at h
    simp at h
  rw [getLast?_dropWhile_of_ne_nil hne, List.getLast?_reverse] at h
  intro hmem
  have := head?_dropWhile_not h
  simp [hmem] at this

theorem pyStripChars_getLast_not_mem (cs : List Char) (s : Str) (c : Char)
    (h : (pyStripChars cs s).getLast? = some c) : c ∉ cs := by
  rw [pyStripChars, List.getLast?_reverse] at h
  intro hmem
  have := head?_dropWhile_not h
  simp [hmem] at this

theorem pyStripChars_of_ends (cs : List Char) (c d : Char) (mid : Str)
    (hc : c ∉ cs) (hd : d ∉ cs) :
    pyStripChars cs (c :: (mid ++ [d])) = c :: (mid ++ [d]) := by
  rw [pyStripChars]
  rw [List.dropWhile_cons, if_neg (by simp [hc])]
  rw [List.reverse_cons, List.reverse_append]
  show ((d :: mid.reverse ++ [c]).dropWhile (· ∈ cs)).reverse = _
  rw [List.cons_append, List.dropWhile_cons, if_neg (by simp [hd])]
  rw [List.reverse_cons, List.reverse_append, List.reverse_reverse]
  rfl

/-- Claim C8 counterexample: artist `"-"` and title `"X"` are both
non-empty, yet the display string is `"X"`, not `"- - X"` — `.strip(" -")`
eats the artist's own hyphen along with the separator. -/
theorem display_strip_counterexample :
    displayRaw ['-'] ['X'] = ['X'] ∧
      (['-'] : Str) ≠ [] ∧ (['X'] : Str) ≠ [] ∧
      (['X'] : Str) ≠ ['-'] ++ sepStr ++ ['X'] := by
  decide

/-- Claim C8 as amended: empty artist with title "X" yields "X"; both empty
yields ""; both non-empty yields `"artist - title"` PROVIDED the artist does
not begin, and the title does not end, with a space or hyphen (otherwise
those characters are stripped too); and the result never begins or ends
with a space or hyphen, so no bare separator is ever rendered. -/
theorem display_formatting (c d : Char) (a t a2 t2 : Str)
    (hc : c ∉ stripSet) (hd : d ∉ stripSet) :
    displayRaw [] ['X'] = ['X'] ∧
      displayRaw [] [] = ([] : Str) ∧
      displayRaw (c :: a) (t ++ [d]) = (c :: a) ++ sepStr ++ (t ++ [d]) ∧
      (∀ ch, (displayRaw a2 t2).head? = some ch → ch ∉ stripSet) ∧
      (∀ ch, (displayRaw a2 t2).getLast? = some ch → ch ∉ stripSet) := by
  refine ⟨by decide, by decide, ?_, ?_, ?_⟩
  · rw [displayRaw]
    have hs : (c :: a) ++ sepStr ++ (t ++ [d])
        = c :: ((a ++ sepStr ++ t) ++ [d]) := by
      simp [List.append_assoc]
    rw [hs]
    rw [pyStripChars_of_ends stripSet c d (a ++ sepStr ++ t) hc hd]
  · intro ch h
    exact pyStripChars_head_not_mem stripSet _ ch h
  · intro ch h
    exact pyStripChars_getLast_not_mem stripSet _ ch h

/-- Witness for C8 (amended): artist "Ab" and title "Cd", whose boundary
characters are not in the stripped set, render as `"Ab - Cd"`; the head and
last characters of the display built from artist "-" and title "X" avoid the
separator characters. -/
theorem display_formatting_witness :
    ('A' ∉ stripSet) ∧ ('d' ∉ stripSet) ∧
      (displayRaw [] ['X'] = ['X'] ∧
        displayRaw [] [] = ([] : Str) ∧
        displayRaw ('A' :: ['b']) (['C'] ++ ['d'])
          = ('A' :: ['b']) ++ sepStr ++ (['C'] ++ ['d']) ∧
        (∀ ch, (displayRaw ['-'] ['X']).head? = some ch → ch ∉ stripSet) ∧
        (∀ ch, (displayRaw ['-'] ['X']).getLast? = some ch → ch ∉ stripSet)) :=
  ⟨by decide, by decide,
    display_formatting 'A' 'd' ['b'] ['C'] ['-'] ['X'] (by decide) (by decide)⟩

/-- Claim C9 counterexample: `parse_cue` aborts with an exception on a
PERFORMER line with no quoted value (`line.split('"')[1]` raises
`IndexError`) and on an INDEX 01 line whose timestamp is not of the
`minutes:seconds:frames` shape (tuple unpacking raises `ValueError`) —
even when surrounded by well-formed lines. The lines are not skipped. -/
theorem parse_cue_aborts :
    parse_cue ["PERFORMER Unknown Artist".toList] = .error () ∧
      parse_cue ["REM ok".toList, "PERFORMER \"A\"".toList,
          "INDEX 01 01:30".toList] = .error () := by
  constructor
  · rfl
  · rfl

/-- Claim C9 as amended: a line carrying none of the PERFORMER, TITLE, or
INDEX 01 tags is skipped and parsing continues on the remaining lines; but
a malformed TAGGED line — a PERFORMER line with no quoted value, or an
INDEX 01 line whose timestamp lacks the three colon-separated fields —
raises an exception that escapes `parse_cue` and aborts parsing. -/
theorem parse_cue_skip_or_abort (line : Str) (a t : Option Str)
    (rest : List Str)
    (h1 : hasTag "PERFORMER" (pyStripWs line) = false)
    (h2 : hasTag "TITLE" (pyStripWs line) = false)
    (h3 : hasTag "INDEX 01" (pyStripWs line) = false) :
    parseCueLoop a t (line :: rest) = parseCueLoop a t rest ∧
      parse_cue ["PERFORMER NoQuotes".toList] = .error () ∧
      parse_cue ["INDEX 01 0130".toList] = .error () := by
  refine ⟨?_, rfl, rfl⟩
  rw [parseCueLoop]
  simp [h1, h2, h3]

/-- Witness for C9 (amended): a REM comment line is skipped and parsing
continues with the next line. -/
theorem parse_cue_skip_or_abort_witness :
    hasTag "PERFORMER" (pyStripWs "REM a comment".toList) = false ∧
      hasTag "TITLE" (pyStripWs "REM a comment".toList) = false ∧
      hasTag "INDEX 01" (pyStripWs "REM a comment".toList) = false ∧
      (parseCueLoop none none
          ("REM a comment".toList :: ["TITLE \"S\"".toList])
          = parseCueLoop none none ["TITLE \"S\"".toList] ∧
        parse_cue ["PERFORMER NoQuotes".toList] = .error () ∧
        parse_cue ["INDEX 01 0130".toList] = .error ()) :=
  ⟨by decide, by decide, by decide,
    parse_cue_skip_or_abort "REM a comment".toList none none
      ["TITLE \"S\"".toList] (by decide) (by decide) (by decide)⟩

end Radio
